import Mathlib

set_option autoImplicit false

/-!
Shallow embedding of the stellar-federation crate (src/lib.rs): the address
parser, the four query-URL builders, the HTTP status dispatch of
`resolve_url`, and the custom `Deserialize` implementation for
`FederationResponse`.  External capabilities (hyper transport, stellar_toml
resolution, stellar_base public-key parsing and memo construction, base64)
are modelled as explicit parameters or, where their behaviour matters, from
the spec's description of them.
-/

namespace StellarFederation

deriving instance DecidableEq for Except

/-- A JSON value, restricted to the shapes the federation wire format uses. -/
inductive JVal where
  | jstr (s : String)
  | jnum (n : Int)
  | jbool (b : Bool)
  | jnull
  deriving DecidableEq

/-- A JSON object: an ordered list of key/value fields. -/
abbrev JObj := List (String × JVal)

/-- Modelled from the spec: the opaque `PublicKey` type of the external
crypto capability; `account_id` is its string-encoded form (the value
`public_key.account_id()` returns in the source). -/
structure PublicKey where
  account_id : String
  deriving DecidableEq

/-- Modelled from the spec: stellar_base's `Memo` tagged union with its three
variants used by federation (`Text`, `Id`, `Hash`). -/
inductive Memo where
  | text (value : String)
  | id (value : Nat)
  | hash (bytes : List Nat)
  deriving DecidableEq

/-- The external capabilities the decoder consumes, as abstract parameters:
`parsePublicKey` is stellar_base's `PublicKey::from_account_id`; `textOk`
says whether a string is within the protocol's text-memo length limit;
`base64Decode` is `base64::decode`; `hashOk` says whether a byte string has
the fixed length a hash memo requires. -/
structure Caps where
  parsePublicKey : String → Option PublicKey
  textOk : String → Bool
  base64Decode : String → Option (List Nat)
  hashOk : List Nat → Bool

/-- Modelled from the spec: `Memo::new_text` validates the protocol's
text-memo size limit and yields the `Text` variant carrying the value. -/
def newText (caps : Caps) (value : String) : Option Memo :=
  if caps.textOk value then some (Memo.text value) else none

/-- Modelled from the spec: `Memo::new_id` is the infallible `Id` variant
constructor for an unsigned 64-bit id. -/
def new_id (value : Nat) : Memo :=
  Memo.id value

/-- Modelled from the spec: `Memo::new_hash` validates the fixed hash length
and yields the `Hash` variant carrying the bytes. -/
def newHash (caps : Caps) (bytes : List Nat) : Option Memo :=
  if caps.hashOk bytes then some (Memo.hash bytes) else none

/-- The digit fold of Rust's unsigned integer `FromStr`. -/
def digitsToNat (l : List Char) : Nat :=
  l.foldl (fun acc c => acc * 10 + (c.toNat - 48)) 0

/-- Rust's `str::parse::<u64>`: an optional leading `+`, then a non-empty
run of ASCII digits whose value fits in 64 bits; anything else fails. -/
def rustParseU64 (s : String) : Option Nat :=
  let chars :=
    match s.toList with
    | '+' :: rest => rest
    | l => l
  if chars ≠ [] ∧ chars.all Char.isDigit then
    if digitsToNat chars < 2 ^ 64 then some (digitsToNat chars) else none
  else none

/-- Rust's `str::trim`: remove whitespace characters from both ends of the
string. -/
def trim (s : String) : String :=
  String.mk
    (((s.toList.dropWhile Char.isWhitespace).reverse.dropWhile Char.isWhitespace).reverse)

/-- The intermediate wire structure of the decoder (struct
`IntermediateFederationResponse` in the source). -/
structure IntermediateFederationResponse where
  stellar_address : String
  account_id : String
  memo_type : Option String
  memo : Option String
  deriving DecidableEq

/-- The resolved federation record (struct `FederationResponse`). -/
structure FederationResponse where
  stellar_address : String
  account_id : PublicKey
  memo : Option Memo
  deriving DecidableEq

/-- The distinct `SerdeError::custom` messages the decoder produces, one
constructor per message in the source. -/
inductive DecodeErr where
  | malformedAccountId
  | malformedTextMemo
  | malformedIdMemo
  | malformedBase64HashMemo
  | malformedHashMemo
  | invalidMemoTypeOrMemo
  deriving DecidableEq

/-- A serde_json error: either a structural parse failure or one of the
decoder's custom errors. -/
inductive JsonError where
  | structural (msg : String)
  | custom (e : DecodeErr)
  deriving DecidableEq

/-- An error of the external stellar_toml resolver, kept abstract. -/
structure TomlError where
  msg : String
  deriving DecidableEq

/-- An HTTP response: status code plus the response body, already split
into its JSON-object form. -/
structure HttpResponse where
  status : Nat
  body : JObj
  deriving DecidableEq

/-- The crate's `Error` enum (source lines 173-202), one constructor per
variant. -/
inductive Error where
  | invalidStellarAddress
  | missingFederationServer
  | clientError (response : HttpResponse)
  | serverError (response : HttpResponse)
  | tomlResolveError (e : TomlError)
  | jsonError (e : JsonError)
  | hyperError (msg : String)
  | invalidUrl (msg : String)
  | invalidUri (msg : String)
  deriving DecidableEq

/-- The parts of a parsed URL relevant to the query builders: scheme, host,
path, and the (decoded) query pairs in order. -/
structure Url where
  scheme : String
  host : String
  path : String
  query : List (String × String)
  deriving DecidableEq

/-- `url::Url`'s `query_pairs_mut().append_pair(key, value)`: keeps every
existing query pair and appends the new one at the end. -/
def Url.append_pair (u : Url) (key value : String) : Url :=
  { u with query := u.query ++ [(key, value)] }

/-- `stellar_address_request_url`: clone the server URL, append
`type=name` then `q=<address>`. -/
def stellar_address_request_url (address : String) (server : Url) : Url :=
  (server.append_pair "type" "name").append_pair "q" address

/-- `stellar_account_id_request_url`: clone the server URL, append
`type=id` then `q=<string-encoded account id>`. -/
def stellar_account_id_request_url (public_key : PublicKey) (server : Url) : Url :=
  (server.append_pair "type" "id").append_pair "q" public_key.account_id

/-- `stellar_transaction_id_request_url`: clone the server URL, append
`type=txid` then `q=<tx id>`. -/
def stellar_transaction_id_request_url (tx_id : String) (server : Url) : Url :=
  (server.append_pair "type" "txid").append_pair "q" tx_id

/-- `stellar_forward_request_url`: clone the server URL, append
`type=forward`, then every caller-supplied pair in iteration order. -/
def stellar_forward_request_url (forward_parameters : List (String × String))
    (server : Url) : Url :=
  forward_parameters.foldl (fun u kv => u.append_pair kv.1 kv.2)
    (server.append_pair "type" "forward")

/-- Field lookup in a JSON object (first occurrence of the key). -/
def getField (o : JObj) (key : String) : Option JVal :=
  o.lookup key

/-- A required string field of the derived deserializer: missing or
non-string fails structurally. -/
def reqStringField (o : JObj) (key : String) : Except String String :=
  match getField o key with
  | some (JVal.jstr s) => Except.ok s
  | some _ => Except.error ("invalid type: field " ++ key)
  | none => Except.error ("missing field " ++ key)

/-- An `Option<String>` field of the derived deserializer: missing or null
gives `none`, a string gives `some`, any other type fails structurally. -/
def optStringField (o : JObj) (key : String) : Except String (Option String) :=
  match getField o key with
  | some (JVal.jstr s) => Except.ok (some s)
  | some JVal.jnull => Except.ok none
  | some _ => Except.error ("invalid type: field " ++ key)
  | none => Except.ok none

/-- Modelled from the spec and serde's derived deserializer for
`IntermediateFederationResponse` (generated code, not present in src/):
required string fields `stellar_address` and `account_id`, optional string
fields `memo_type` and `memo`; fields with unknown keys are ignored. -/
def parseIntermediate (o : JObj) : Except String IntermediateFederationResponse := do
  let stellar_address ← reqStringField o "stellar_address"
  let account_id ← reqStringField o "account_id"
  let memo_type ← optStringField o "memo_type"
  let memo ← optStringField o "memo"
  Except.ok
    { stellar_address := stellar_address
      account_id := account_id
      memo_type := memo_type
      memo := memo }

/-- The memo disambiguation of the custom `Deserialize` impl: the match on
`(intermediate.memo_type, intermediate.memo)` (source lines 222-244). -/
def decodeMemo (caps : Caps) : Option String → Option String → Except DecodeErr (Option Memo)
  | none, none => Except.ok none
  | some t, some value =>
    if t = "text" then
      match newText caps value with
      | some m => Except.ok (some m)
      | none => Except.error DecodeErr.malformedTextMemo
    else if t = "id" then
      match rustParseU64 value with
      | some id => Except.ok (some (new_id id))
      | none => Except.error DecodeErr.malformedIdMemo
    else if t = "hash" then
      match caps.base64Decode value with
      | some hash =>
        match newHash caps hash with
        | some m => Except.ok (some m)
        | none => Except.error DecodeErr.malformedHashMemo
      | none => Except.error DecodeErr.malformedBase64HashMemo
    else Except.error DecodeErr.invalidMemoTypeOrMemo
  | _, _ => Except.error DecodeErr.invalidMemoTypeOrMemo

/-- The custom `Deserialize` impl for `FederationResponse` after the
intermediate structure has been obtained: validate the whitespace-trimmed
`account_id` with the public-key capability, then disambiguate the memo,
then assemble the record (source lines 217-252). -/
def decodeResponse (caps : Caps) (intermediate : IntermediateFederationResponse) :
    Except DecodeErr FederationResponse :=
  match caps.parsePublicKey (trim intermediate.account_id) with
  | none => Except.error DecodeErr.malformedAccountId
  | some account_id =>
    match decodeMemo caps intermediate.memo_type intermediate.memo with
    | Except.error e => Except.error e
    | Except.ok memo =>
      Except.ok
        { stellar_address := intermediate.stellar_address
          account_id := account_id
          memo := memo }

/-- `serde_json::from_slice::<FederationResponse>` on a body: structural
parse into the intermediate structure, then the custom decode; both kinds
of failure are serde_json errors. -/
def from_slice (caps : Caps) (body : JObj) : Except JsonError FederationResponse :=
  match parseIntermediate body with
  | Except.error msg => Except.error (JsonError.structural msg)
  | Except.ok intermediate =>
    match decodeResponse caps intermediate with
    | Except.error e => Except.error (JsonError.custom e)
    | Except.ok r => Except.ok r

/-- hyper's `StatusCode::is_success`: 200..=299. -/
def StatusCode.is_success (status : Nat) : Bool :=
  200 ≤ status && status ≤ 299

/-- hyper's `StatusCode::is_client_error`: 400..=499. -/
def StatusCode.is_client_error (status : Nat) : Bool :=
  400 ≤ status && status ≤ 499

/-- `resolve_url`, with the HTTP GET as an explicit `fetch` capability (a
transport failure is a hyper error); the re-parse of a valid `Url` into a
`hyper::Uri` is modelled as the identity.  Success status → decode the
body; client-error status → `ClientError` carrying the response; any other
status → `ServerError` carrying the response. -/
def resolve_url (caps : Caps) (fetch : Url → Except String HttpResponse) (url : Url) :
    Except Error FederationResponse :=
  match fetch url with
  | Except.error e => Except.error (Error.hyperError e)
  | Except.ok response =>
    if StatusCode.is_success response.status then
      match from_slice caps response.body with
      | Except.ok result => Except.ok result
      | Except.error e => Except.error (Error.jsonError e)
    else if StatusCode.is_client_error response.status then
      Except.error (Error.clientError response)
    else
      Except.error (Error.serverError response)

/-- `resolve_stellar_address_from_server`: build the by-name query URL and
resolve it. -/
def resolve_stellar_address_from_server (caps : Caps)
    (fetch : Url → Except String HttpResponse) (address : String) (server : Url) :
    Except Error FederationResponse :=
  resolve_url caps fetch (stellar_address_request_url address server)

/-- `resolve_stellar_account_id`: build the by-account-id query URL and
resolve it. -/
def resolve_stellar_account_id (caps : Caps)
    (fetch : Url → Except String HttpResponse) (account_id : PublicKey) (server : Url) :
    Except Error FederationResponse :=
  resolve_url caps fetch (stellar_account_id_request_url account_id server)

/-- `resolve_stellar_transaction_id`: build the by-transaction-id query URL
and resolve it. -/
def resolve_stellar_transaction_id (caps : Caps)
    (fetch : Url → Except String HttpResponse) (tx_id : String) (server : Url) :
    Except Error FederationResponse :=
  resolve_url caps fetch (stellar_transaction_id_request_url tx_id server)

/-- `resolve_stellar_forward`: build the forward query URL and resolve it. -/
def resolve_stellar_forward (caps : Caps)
    (fetch : Url → Except String HttpResponse)
    (forward_parameters : List (String × String)) (server : Url) :
    Except Error FederationResponse :=
  resolve_url caps fetch (stellar_forward_request_url forward_parameters server)

/-- Rust's `str::split` with the one-character pattern `"*"`, on the
character list of the address: always yields at least one (possibly empty)
part; adjacent separators yield empty parts. -/
def splitStar : List Char → List (List Char)
  | [] => [[]]
  | c :: rest =>
    if c = '*' then [] :: splitStar rest
    else (c :: (splitStar rest).headD []) :: (splitStar rest).tail

/-- The `stellar.toml` document as the external resolver yields it: only
the `FEDERATION_SERVER` field matters here. -/
structure StellarToml where
  federation_server : Option String
  deriving DecidableEq

/-- The body of `resolve_stellar_address` after the address has split into
exactly two parts: discovery on the domain (a failure propagates as
`TomlResolveError`), then either `MissingFederationServer`, an `InvalidUrl`
failure parsing the published server URL, or resolution against that
server. -/
def resolve_discovered (caps : Caps)
    (toml_resolve : String → Except TomlError StellarToml)
    (parse_url : String → Except String Url)
    (fetch : Url → Except String HttpResponse)
    (address : String) (domain : List Char) : Except Error FederationResponse :=
  match toml_resolve (String.mk domain) with
  | Except.error e => Except.error (Error.tomlResolveError e)
  | Except.ok toml =>
    match toml.federation_server with
    | some federation_server =>
      match parse_url federation_server with
      | Except.error e => Except.error (Error.invalidUrl e)
      | Except.ok url => resolve_stellar_address_from_server caps fetch address url
    | none => Except.error Error.missingFederationServer

/-- `resolve_stellar_address`: split the address on `*`; exactly two parts
(matching `(Some(_name), Some(domain), None)` in the source) proceed to
discovery with the second part, anything else is `InvalidStellarAddress`. -/
def resolve_stellar_address (caps : Caps)
    (toml_resolve : String → Except TomlError StellarToml)
    (parse_url : String → Except String Url)
    (fetch : Url → Except String HttpResponse)
    (address : String) : Except Error FederationResponse :=
  match splitStar address.toList with
  | [_name, domain] => resolve_discovered caps toml_resolve parse_url fetch address domain
  | _ => Except.error Error.invalidStellarAddress

/-- A concrete capability instance used to evaluate the model on concrete
inputs: exactly one account-id string parses, the text limit is 28 bytes,
one base64 string decodes, and hashes must have 32 bytes. -/
def capsA : Caps :=
  { parsePublicKey := fun s => if s = "GOODKEY" then some { account_id := s } else none
    textOk := fun s => s.length ≤ 28
    base64Decode := fun s => if s = "aGFzaGhhc2g" then some (List.replicate 32 7) else none
    hashOk := fun b => b.length = 32 }

/-- A concrete base server URL with an empty query. -/
def serverA : Url :=
  { scheme := "https", host := "example.org", path := "/federation", query := [] }

/-- A toml resolver that succeeds but publishes no federation server. -/
def tomlNone : String → Except TomlError StellarToml :=
  fun _ => Except.ok { federation_server := none }

/-- A URL parser that always fails. -/
def parseUrlFail : String → Except String Url :=
  fun _ => Except.error "bad url"

/-- A well-formed response body whose account id parses under `capsA`. -/
def bodyGood : JObj :=
  [("stellar_address", JVal.jstr "test*example.org"), ("account_id", JVal.jstr "GOODKEY")]

/-- A response body whose account id does not parse under `capsA`. -/
def bodyBadAccount : JObj :=
  [("stellar_address", JVal.jstr "test*example.org"), ("account_id", JVal.jstr "BADKEY")]

/-- The intermediate structure `bodyBadAccount` parses to. -/
def imBadAccount : IntermediateFederationResponse :=
  { stellar_address := "test*example.org", account_id := "BADKEY"
    memo_type := none, memo := none }

/-- A well-formed intermediate structure whose account id parses under
`capsA`. -/
def imGood : IntermediateFederationResponse :=
  { stellar_address := "test*example.org", account_id := "GOODKEY"
    memo_type := none, memo := none }

/-- A fetch capability answering 404 with an empty body. -/
def fetch404 : Url → Except String HttpResponse :=
  fun _ => Except.ok { status := 404, body := [] }

/-- A fetch capability answering 500 with an empty body. -/
def fetch500 : Url → Except String HttpResponse :=
  fun _ => Except.ok { status := 500, body := [] }

/-- A fetch capability answering 200 with `bodyBadAccount`. -/
def fetch200Bad : Url → Except String HttpResponse :=
  fun _ => Except.ok { status := 200, body := bodyBadAccount }

theorem is_success_iff (s : Nat) :
    StatusCode.is_success s = true ↔ 200 ≤ s ∧ s ≤ 299 := by
  simp [StatusCode.is_success]

theorem is_client_error_iff (s : Nat) :
    StatusCode.is_client_error s = true ↔ 400 ≤ s ∧ s ≤ 499 := by
  simp [StatusCode.is_client_error]

theorem foldl_append_pair (params : List (String × String)) (u : Url) :
    params.foldl (fun a kv => a.append_pair kv.1 kv.2) u =
      { u with query := u.query ++ params } := by
  induction params generalizing u with
  | nil => simp
  | cons kv ps ih =>
    simp only [List.foldl_cons, ih]
    simp [Url.append_pair]

theorem lookup_eq_none_of_keys (extras : JObj) (k : String)
    (h : ∀ p ∈ extras, p.1 ≠ k) : extras.lookup k = none := by
  induction extras with
  | nil => rfl
  | cons q t ih =>
    obtain ⟨a, b⟩ := q
    have ha : a ≠ k := h (a, b) (by simp)
    have hb : (k == a) = false := by
      simp only [beq_eq_false_iff_ne, ne_eq]
      exact fun hh => ha hh.symm
    simp only [List.lookup, hb]
    exact ih fun p hp => h p (by simp [hp])

theorem lookup_append_of_none (o extras : JObj) (k : String)
    (h : extras.lookup k = none) : (o ++ extras).lookup k = o.lookup k := by
  induction o with
  | nil => simpa using h
  | cons q t ih =>
    obtain ⟨a, b⟩ := q
    cases hk : (k == a) with
    | true => simp only [List.cons_append, List.lookup, hk]
    | false =>
      simp only [List.cons_append, List.lookup, hk]
      exact ih

theorem getField_append (o extras : JObj) (k : String)
    (h : ∀ p ∈ extras, p.1 ≠ k) : getField (o ++ extras) k = getField o k :=
  lookup_append_of_none o extras k (lookup_eq_none_of_keys extras k h)

theorem reqStringField_append (o extras : JObj) (k : String)
    (h : ∀ p ∈ extras, p.1 ≠ k) :
    reqStringField (o ++ extras) k = reqStringField o k := by
  unfold reqStringField
  rw [getField_append o extras k h]

theorem optStringField_append (o extras : JObj) (k : String)
    (h : ∀ p ∈ extras, p.1 ≠ k) :
    optStringField (o ++ extras) k = optStringField o k := by
  unfold optStringField
  rw [getField_append o extras k h]

theorem splitStar_ne_nil (l : List Char) : splitStar l ≠ [] := by
  cases l with
  | nil => simp [splitStar]
  | cons c rest =>
    by_cases h : c = '*' <;> simp [splitStar, h]

theorem splitStar_length (l : List Char) : (splitStar l).length = l.count '*' + 1 := by
  induction l with
  | nil => simp [splitStar]
  | cons c rest ih =>
    by_cases h : c = '*'
    · simp [splitStar, h, List.count_cons, ih]
    · have h1 : 1 ≤ (splitStar rest).length := by
        cases he : splitStar rest with
        | nil => exact absurd he (splitStar_ne_nil rest)
        | cons q qs => simp
      simp only [splitStar, if_neg h, List.length_cons, List.length_tail]
      simp [List.count_cons, h]
      omega

theorem splitStar_no_star (l : List Char) : ∀ p ∈ splitStar l, '*' ∉ p := by
  induction l with
  | nil =>
    intro p hp
    simp [splitStar] at hp
    simp [hp]
  | cons c rest ih =>
    intro p hp
    by_cases h : c = '*'
    · simp only [splitStar, if_pos h, List.mem_cons] at hp
      rcases hp with h1 | h1
      · simp [h1]
      · exact ih p h1
    · simp only [splitStar, if_neg h, List.mem_cons] at hp
      rcases hp with h1 | h1
      · subst h1
        intro hmem
        rcases List.mem_cons.mp hmem with h2 | h2
        · exact h h2.symm
        · cases he : splitStar rest with
          | nil => simp [he] at h2
          | cons q qs => exact ih q (by simp [he]) (by simpa [he] using h2)
      · exact ih p (List.mem_of_mem_tail h1)

/-- C8: an address with zero `*` characters or with two or more `*`
characters makes `resolve_stellar_address` fail with
`InvalidStellarAddress`, for every discovery, URL-parsing and fetch
capability — so before any network call is attempted. -/
theorem c8_star_count_invalid_address (caps : Caps)
    (toml_resolve : String → Except TomlError StellarToml)
    (parse_url : String → Except String Url)
    (fetch : Url → Except String HttpResponse) (address : String)
    (h : address.toList.count '*' = 0 ∨ 2 ≤ address.toList.count '*') :
    resolve_stellar_address caps toml_resolve parse_url fetch address =
      Except.error Error.invalidStellarAddress := by
  have hlen := splitStar_length address.toList
  unfold resolve_stellar_address
  rcases hs : splitStar address.toList with _ | ⟨a, _ | ⟨b, _ | ⟨c, tl⟩⟩⟩
  · rfl
  · rfl
  · rw [hs] at hlen
    simp only [List.length_cons, List.length_nil] at hlen
    omega
  · rfl

/-- C8 witness: the star-free address `nostar` and the two-star address
`a*b*c` both resolve to `InvalidStellarAddress` under concrete
capabilities. -/
theorem c8_star_count_invalid_address_witness :
    ("nostar".toList.count '*' = 0 ∧
      resolve_stellar_address capsA tomlNone parseUrlFail fetch404 "nostar" =
        Except.error Error.invalidStellarAddress) ∧
      (2 ≤ "a*b*c".toList.count '*' ∧
        resolve_stellar_address capsA tomlNone parseUrlFail fetch404 "a*b*c" =
          Except.error Error.invalidStellarAddress) :=
  ⟨⟨by decide,
      c8_star_count_invalid_address capsA tomlNone parseUrlFail fetch404 "nostar"
        (Or.inl (by decide))⟩,
    ⟨by decide,
      c8_star_count_invalid_address capsA tomlNone parseUrlFail fetch404 "a*b*c"
        (Or.inr (by decide))⟩⟩

/-- C1 counterexample: the address `*example.org` has exactly one `*` and an
empty local-name segment, yet `resolve_stellar_address` does not fail with
`InvalidStellarAddress`: it proceeds to discovery (here a resolver
publishing no federation server) and fails with `MissingFederationServer`. -/
theorem c1_counterexample :
    resolve_stellar_address capsA tomlNone parseUrlFail fetch404 "*example.org" =
        Except.error Error.missingFederationServer ∧
      resolve_stellar_address capsA tomlNone parseUrlFail fetch404 "*example.org" ≠
        Except.error Error.invalidStellarAddress := by
  have h : resolve_stellar_address capsA tomlNone parseUrlFail fetch404 "*example.org" =
      Except.error Error.missingFederationServer := by decide
  refine ⟨h, ?_⟩
  rw [h]
  intro hcontra
  exact absurd (Except.error.inj hcontra) (by decide)

/-- C1 (amended): an address splitting on `*` into exactly two segments
proceeds with the domain segment to discovery even when the local-name
segment or the domain segment is empty; only the separator count is
validated. -/
theorem c1_empty_segment_still_discovers (caps : Caps)
    (toml_resolve : String → Except TomlError StellarToml)
    (parse_url : String → Except String Url)
    (fetch : Url → Except String HttpResponse)
    (address : String) (name domain : List Char)
    (hsplit : splitStar address.toList = [name, domain])
    (_hempty : name = [] ∨ domain = []) :
    resolve_stellar_address caps toml_resolve parse_url fetch address =
      resolve_discovered caps toml_resolve parse_url fetch address domain := by
  unfold resolve_stellar_address
  rw [hsplit]

/-- C1 (amended) witness: `*example.org` splits into an empty name and
`example.org`, and resolution proceeds to discovery with `example.org`. -/
theorem c1_empty_segment_still_discovers_witness :
    splitStar ("*example.org".toList) = [[], "example.org".toList] ∧
      resolve_stellar_address capsA tomlNone parseUrlFail fetch404 "*example.org" =
        resolve_discovered capsA tomlNone parseUrlFail fetch404 "*example.org"
          ("example.org".toList) :=
  ⟨by decide,
    c1_empty_segment_still_discovers capsA tomlNone parseUrlFail fetch404
      "*example.org" [] ("example.org".toList) (by decide) (Or.inl rfl)⟩

/-- C7: for an address splitting on `*` into exactly two segments,
`resolve_stellar_address` continues with discovery applied to exactly the
domain segment; the domain segment contains no `*` and is never the full
address string. -/
theorem c7_discovery_domain_only (caps : Caps)
    (toml_resolve : String → Except TomlError StellarToml)
    (parse_url : String → Except String Url)
    (fetch : Url → Except String HttpResponse)
    (address : String) (name domain : List Char)
    (hsplit : splitStar address.toList = [name, domain]) :
    resolve_stellar_address caps toml_resolve parse_url fetch address =
        resolve_discovered caps toml_resolve parse_url fetch address domain ∧
      '*' ∉ domain ∧ String.mk domain ≠ address := by
  refine ⟨?_, ?_, ?_⟩
  · unfold resolve_stellar_address
    rw [hsplit]
  · exact splitStar_no_star address.toList domain (by rw [hsplit]; simp)
  · intro heq
    have hlen := splitStar_length address.toList
    rw [hsplit] at hlen
    simp only [List.length_cons, List.length_nil] at hlen
    have hmem : '*' ∈ address.toList := by
      by_contra hno
      rw [List.count_eq_zero_of_not_mem hno] at hlen
      omega
    have hlist : address.toList = domain := by
      rw [← heq]
      rfl
    exact splitStar_no_star address.toList domain (by rw [hsplit]; simp)
      (hlist ▸ hmem)

/-- C7 witness: resolving `name*example.org` continues with discovery on
exactly `example.org`, which is star-free and differs from the address. -/
theorem c7_discovery_domain_only_witness :
    resolve_stellar_address capsA tomlNone parseUrlFail fetch404 "name*example.org" =
        resolve_discovered capsA tomlNone parseUrlFail fetch404 "name*example.org"
          ("example.org".toList) ∧
      '*' ∉ "example.org".toList ∧
        String.mk ("example.org".toList) ≠ "name*example.org" :=
  c7_discovery_domain_only capsA tomlNone parseUrlFail fetch404 "name*example.org"
    ("name".toList) ("example.org".toList) (by decide)

/-- C2: the memo disambiguation accepts exactly four `(memo_type, memo)`
combinations — both absent (no memo), and `text`/`id`/`hash` with a memo
value present (yielding the corresponding variant on success) — and every
other combination fails with the decoder's invalid-memo error (the
`SerdeError::custom "Invalid memo_type or memo"` arm of the source). -/
theorem c2_memo_combinations (caps : Caps) (mt m : Option String) :
    (decodeMemo caps mt m = Except.error DecodeErr.invalidMemoTypeOrMemo ↔
      ¬ ((mt = none ∧ m = none) ∨
        (m.isSome = true ∧ (mt = some "text" ∨ mt = some "id" ∨ mt = some "hash")))) ∧
    (∀ r, decodeMemo caps mt m = Except.ok r →
      (mt = none ∧ m = none ∧ r = none) ∨
      (∃ v, m = some v ∧
        ((mt = some "text" ∧ caps.textOk v = true ∧ r = some (Memo.text v)) ∨
          (∃ n, mt = some "id" ∧ rustParseU64 v = some n ∧ r = some (Memo.id n)) ∨
          (∃ b, mt = some "hash" ∧ caps.base64Decode v = some b ∧
            caps.hashOk b = true ∧ r = some (Memo.hash b))))) := by
  cases mt with
  | none =>
    cases m with
    | none =>
      refine ⟨by simp [decodeMemo], ?_⟩
      intro r hr
      rw [show decodeMemo caps none none = Except.ok none from rfl] at hr
      exact Or.inl ⟨rfl, rfl, (Except.ok.inj hr).symm⟩
    | some v =>
      refine ⟨by simp [decodeMemo], ?_⟩
      intro r hr
      exact absurd hr (by simp [decodeMemo])
  | some t =>
    cases m with
    | none =>
      refine ⟨by simp [decodeMemo], ?_⟩
      intro r hr
      exact absurd hr (by simp [decodeMemo])
    | some v =>
      by_cases h1 : t = "text"
      · subst h1
        cases hok : caps.textOk v with
        | true =>
          have hred : decodeMemo caps (some "text") (some v) =
              Except.ok (some (Memo.text v)) := by
            simp [decodeMemo, newText, hok]
          refine ⟨by simp [hred], ?_⟩
          intro r hr
          rw [hred] at hr
          obtain rfl := Except.ok.inj hr
          exact Or.inr ⟨v, rfl, Or.inl ⟨rfl, hok, rfl⟩⟩
        | false =>
          have hred : decodeMemo caps (some "text") (some v) =
              Except.error DecodeErr.malformedTextMemo := by
            simp [decodeMemo, newText, hok]
          refine ⟨by simp [hred], ?_⟩
          intro r hr
          rw [hred] at hr
          exact absurd hr (by simp)
      · by_cases h2 : t = "id"
        · subst h2
          cases hp : rustParseU64 v with
          | some n =>
            have hred : decodeMemo caps (some "id") (some v) =
                Except.ok (some (Memo.id n)) := by
              simp [decodeMemo, hp, new_id]
            refine ⟨by simp [hred], ?_⟩
            intro r hr
            rw [hred] at hr
            obtain rfl := Except.ok.inj hr
            exact Or.inr ⟨v, rfl, Or.inr (Or.inl ⟨n, rfl, hp, rfl⟩)⟩
          | none =>
            have hred : decodeMemo caps (some "id") (some v) =
                Except.error DecodeErr.malformedIdMemo := by
              simp [decodeMemo, hp]
            refine ⟨by simp [hred], ?_⟩
            intro r hr
            rw [hred] at hr
            exact absurd hr (by simp)
        · by_cases h3 : t = "hash"
          · subst h3
            cases hb : caps.base64Decode v with
            | some bytes =>
              cases hh : caps.hashOk bytes with
              | true =>
                have hred : decodeMemo caps (some "hash") (some v) =
                    Except.ok (some (Memo.hash bytes)) := by
                  simp [decodeMemo, newHash, hb, hh]
                refine ⟨by simp [hred], ?_⟩
                intro r hr
                rw [hred] at hr
                obtain rfl := Except.ok.inj hr
                exact Or.inr ⟨v, rfl, Or.inr (Or.inr ⟨bytes, rfl, hb, hh, rfl⟩)⟩
              | false =>
                have hred : decodeMemo caps (some "hash") (some v) =
                    Except.error DecodeErr.malformedHashMemo := by
                  simp [decodeMemo, newHash, hb, hh]
                refine ⟨by simp [hred], ?_⟩
                intro r hr
                rw [hred] at hr
                exact absurd hr (by simp)
            | none =>
              have hred : decodeMemo caps (some "hash") (some v) =
                  Except.error DecodeErr.malformedBase64HashMemo := by
                simp [decodeMemo, hb]
              refine ⟨by simp [hred], ?_⟩
              intro r hr
              rw [hred] at hr
              exact absurd hr (by simp)
          · have hred : decodeMemo caps (some t) (some v) =
                Except.error DecodeErr.invalidMemoTypeOrMemo := by
              simp [decodeMemo, h1, h2, h3]
            refine ⟨by simp [hred, h1, h2, h3], ?_⟩
            intro r hr
            rw [hred] at hr
            exact absurd hr (by simp)

/-- C2 witness: under concrete capabilities, an unknown `memo_type`, a
`memo_type` without a memo, and a memo without a `memo_type` each fail with
the invalid-memo error, while both-absent yields a record with no memo. -/
theorem c2_memo_combinations_witness :
    decodeMemo capsA (some "weird") (some "x") =
        Except.error DecodeErr.invalidMemoTypeOrMemo ∧
      decodeMemo capsA (some "text") none =
        Except.error DecodeErr.invalidMemoTypeOrMemo ∧
      decodeMemo capsA none (some "x") =
        Except.error DecodeErr.invalidMemoTypeOrMemo ∧
      decodeMemo capsA none none = Except.ok none :=
  ⟨(c2_memo_combinations capsA (some "weird") (some "x")).1.mpr (by decide),
    (c2_memo_combinations capsA (some "text") none).1.mpr (by decide),
    (c2_memo_combinations capsA none (some "x")).1.mpr (by decide),
    by decide⟩

/-- C3 (amended): the decoder validates the whitespace-trimmed `account_id`
through the public-key capability; on failure decoding fails with the
custom `Malformed account_id` error, which `from_slice` surfaces as a
serde_json custom error — not as a distinct typed crate-error variant. -/
theorem c3_account_id_validation (caps : Caps) (im : IntermediateFederationResponse)
    (h : caps.parsePublicKey (trim im.account_id) = none) :
    decodeResponse caps im = Except.error DecodeErr.malformedAccountId ∧
      ∀ body, parseIntermediate body = Except.ok im →
        from_slice caps body =
          Except.error (JsonError.custom DecodeErr.malformedAccountId) := by
  have hd : decodeResponse caps im = Except.error DecodeErr.malformedAccountId := by
    unfold decodeResponse
    rw [h]
  refine ⟨hd, ?_⟩
  intro body hb
  simp only [from_slice, hb, hd]

/-- C3 (amended) witness: a concrete body whose account id is rejected by
the capability decodes to the custom `Malformed account_id` error. -/
theorem c3_account_id_validation_witness :
    capsA.parsePublicKey (trim imBadAccount.account_id) = none ∧
      decodeResponse capsA imBadAccount = Except.error DecodeErr.malformedAccountId ∧
      from_slice capsA bodyBadAccount =
        Except.error (JsonError.custom DecodeErr.malformedAccountId) :=
  ⟨by decide,
    (c3_account_id_validation capsA imBadAccount (by decide)).1,
    (c3_account_id_validation capsA imBadAccount (by decide)).2 bodyBadAccount (by decide)⟩

/-- C3 counterexample: on a 200 response whose `account_id` does not parse,
the whole pipeline fails with the crate's generic `JsonError` variant
(wrapping the custom `Malformed account_id` message); the crate's `Error`
enum has no distinct invalid-account-id variant, so the failure is a
generic deserialization error, not a distinct typed one. -/
theorem c3_counterexample :
    resolve_url capsA fetch200Bad serverA =
      Except.error (Error.jsonError (JsonError.custom DecodeErr.malformedAccountId)) := by
  decide

/-- C9: with `memo_type = "id"` and a memo value present, the decoder
parses the value with Rust's `u64` parser and yields the `Id` variant
carrying the parsed value; a value that does not parse as a `u64`
(non-numeric, negative, or not fitting in 64 bits) fails with the
`Malformed id memo` decode error. -/
theorem c9_id_memo (caps : Caps) (v : String) :
    (∀ n, rustParseU64 v = some n →
      decodeMemo caps (some "id") (some v) = Except.ok (some (Memo.id n))) ∧
    (rustParseU64 v = none →
      decodeMemo caps (some "id") (some v) = Except.error DecodeErr.malformedIdMemo) := by
  constructor
  · intro n hn
    simp [decodeMemo, hn, new_id]
  · intro hn
    simp [decodeMemo, hn]

/-- C9 witness: `memo = "12345"` yields `Id 12345`; the non-numeric
`"12x45"` fails with the malformed-id error; `"-1"` and `2 ^ 64` are
also rejected by the parser. -/
theorem c9_id_memo_witness :
    rustParseU64 "12345" = some 12345 ∧
      decodeMemo capsA (some "id") (some "12345") =
        Except.ok (some (Memo.id 12345)) ∧
      rustParseU64 "12x45" = none ∧
      decodeMemo capsA (some "id") (some "12x45") =
        Except.error DecodeErr.malformedIdMemo ∧
      rustParseU64 "-1" = none ∧
      rustParseU64 "18446744073709551616" = none :=
  ⟨by decide,
    (c9_id_memo capsA "12345").1 12345 (by decide),
    by decide,
    (c9_id_memo capsA "12x45").2 (by decide),
    by decide,
    by decide⟩

/-- C4: `resolve_url` dispatches on the HTTP status of the fetched
response: a success-range status passes the body to the response decoder
(the result is the decode of the body, decode errors surfacing as
`JsonError`), a 4xx status fails with `ClientError` carrying the response,
and any other non-success status fails with `ServerError` carrying the
response. -/
theorem c4_status_dispatch (caps : Caps) (fetch : Url → Except String HttpResponse)
    (url : Url) (r : HttpResponse) (hf : fetch url = Except.ok r) :
    (StatusCode.is_success r.status = true →
      resolve_url caps fetch url = (from_slice caps r.body).mapError Error.jsonError) ∧
    (400 ≤ r.status ∧ r.status ≤ 499 →
      resolve_url caps fetch url = Except.error (Error.clientError r)) ∧
    (StatusCode.is_success r.status = false →
      StatusCode.is_client_error r.status = false →
      resolve_url caps fetch url = Except.error (Error.serverError r)) := by
  refine ⟨?_, ?_, ?_⟩
  · intro hs
    unfold resolve_url
    rw [hf]
    simp only [hs, if_true]
    cases h : from_slice caps r.body <;> simp [Except.mapError, h]
  · intro h4
    have hns : StatusCode.is_success r.status = false := by
      rw [Bool.eq_false_iff]
      intro hcontra
      rw [is_success_iff] at hcontra
      omega
    have hc : StatusCode.is_client_error r.status = true :=
      (is_client_error_iff r.status).mpr h4
    unfold resolve_url
    rw [hf]
    simp [hns, hc]
  · intro hns hnc
    unfold resolve_url
    rw [hf]
    simp [hns, hnc]

/-- C4 witness: HTTP 404 yields `ClientError` carrying the 404 response,
HTTP 500 yields `ServerError` carrying the 500 response, and HTTP 200
passes the body to the decoder. -/
theorem c4_status_dispatch_witness :
    resolve_url capsA fetch404 serverA =
        Except.error (Error.clientError { status := 404, body := [] }) ∧
      resolve_url capsA fetch500 serverA =
        Except.error (Error.serverError { status := 500, body := [] }) ∧
      resolve_url capsA fetch200Bad serverA =
        (from_slice capsA bodyBadAccount).mapError Error.jsonError :=
  ⟨(c4_status_dispatch capsA fetch404 serverA _ rfl).2.1 (by decide),
    (c4_status_dispatch capsA fetch500 serverA _ rfl).2.2 (by decide) (by decide),
    (c4_status_dispatch capsA fetch200Bad serverA _ rfl).1 (by decide)⟩

/-- C5: each of the four query builders returns a URL with the base's
scheme, host and path unchanged, whose query is the base's pre-existing
query pairs unchanged, followed by the newly appended pairs; no existing
pair is replaced or removed, and the base URL value itself is untouched
(the source clones the server URL before appending). -/
theorem c5_query_builders_preserve_base (server : Url) (address : String)
    (public_key : PublicKey) (tx_id : String) (params : List (String × String)) :
    stellar_address_request_url address server =
        { server with query := server.query ++ [("type", "name"), ("q", address)] } ∧
      stellar_account_id_request_url public_key server =
        { server with query :=
            server.query ++ [("type", "id"), ("q", public_key.account_id)] } ∧
      stellar_transaction_id_request_url tx_id server =
        { server with query := server.query ++ [("type", "txid"), ("q", tx_id)] } ∧
      stellar_forward_request_url params server =
        { server with query := server.query ++ ("type", "forward") :: params } := by
  refine ⟨?_, ?_, ?_, ?_⟩
  · simp [stellar_address_request_url, Url.append_pair]
  · simp [stellar_account_id_request_url, Url.append_pair]
  · simp [stellar_transaction_id_request_url, Url.append_pair]
  · unfold stellar_forward_request_url
    rw [foldl_append_pair]
    simp [Url.append_pair]

/-- C6 counterexample: a caller-supplied pair with key `q` is appended
verbatim by `stellar_forward_request_url`, so the parameter `q` is set in
the resulting URL, refuting the claim that `q` is never set for every
caller-supplied parameter sequence. -/
theorem c6_counterexample :
    (stellar_forward_request_url [("q", "1")] serverA).query =
        [("type", "forward"), ("q", "1")] ∧
      ("q", "1") ∈ (stellar_forward_request_url [("q", "1")] serverA).query :=
  ⟨by decide, by decide⟩

/-- C6 (amended): `stellar_forward_request_url` appends `type=forward` and
then every caller-supplied pair in exactly the caller-provided order; the
function itself never adds a `q` parameter — `q` occurs in the result only
if it occurs in the base URL's query or among the caller-supplied pairs. -/
theorem c6_forward_order_and_q (server : Url) (params : List (String × String)) :
    (stellar_forward_request_url params server).query =
        server.query ++ ("type", "forward") :: params ∧
      ∀ v, ("q", v) ∈ (stellar_forward_request_url params server).query →
        ("q", v) ∈ server.query ∨ ("q", v) ∈ params := by
  have hq : (stellar_forward_request_url params server).query =
      server.query ++ ("type", "forward") :: params := by
    unfold stellar_forward_request_url
    rw [foldl_append_pair]
    simp [Url.append_pair]
  refine ⟨hq, ?_⟩
  intro v hv
  rw [hq] at hv
  rcases List.mem_append.mp hv with h | h
  · exact Or.inl h
  · rcases List.mem_cons.mp h with h2 | h2
    · have hk : ("q" : String) = "type" := congrArg Prod.fst h2
      exact absurd hk (by decide)
    · exact Or.inr h2

/-- C6 (amended) witness: with an empty base query and one caller pair, the
resulting query is `type=forward` followed by that pair, and any `q` pair
in the result comes from the base query or the caller pairs. -/
theorem c6_forward_order_and_q_witness :
    (stellar_forward_request_url [("forward_type", "bank_account")] serverA).query =
        [("type", "forward"), ("forward_type", "bank_account")] ∧
      (("q", "1") ∈
          (stellar_forward_request_url [("q", "1")] serverA).query →
        ("q", "1") ∈ serverA.query ∨ ("q", "1") ∈ [(("q" : String), ("1" : String))]) := by
  constructor
  · have h := (c6_forward_order_and_q serverA [("forward_type", "bank_account")]).1
    simpa [serverA] using h
  · exact (c6_forward_order_and_q serverA [("q", "1")]).2 "1"

/-- C10: the structural parse reads only the four known fields, so fields
with unknown keys never change its result (in particular never make it
fail); the decoder copies `stellar_address` into the record verbatim and
applies no validation to it — replacing it with any string leaves the rest
of the decode unchanged. -/
theorem c10_unknown_fields_and_verbatim_address (o extras : JObj) (caps : Caps)
    (im : IntermediateFederationResponse) (s : String)
    (hext : ∀ p ∈ extras,
      p.1 ∉ (["stellar_address", "account_id", "memo_type", "memo"] : List String)) :
    parseIntermediate (o ++ extras) = parseIntermediate o ∧
      (∀ r, decodeResponse caps im = Except.ok r →
        r.stellar_address = im.stellar_address) ∧
      decodeResponse caps { im with stellar_address := s } =
        (decodeResponse caps im).map fun r => { r with stellar_address := s } := by
  refine ⟨?_, ?_, ?_⟩
  · have h1 := reqStringField_append o extras "stellar_address"
      fun p hp he => hext p hp (by rw [he]; decide)
    have h2 := reqStringField_append o extras "account_id"
      fun p hp he => hext p hp (by rw [he]; decide)
    have h3 := optStringField_append o extras "memo_type"
      fun p hp he => hext p hp (by rw [he]; decide)
    have h4 := optStringField_append o extras "memo"
      fun p hp he => hext p hp (by rw [he]; decide)
    unfold parseIntermediate
    rw [h1, h2, h3, h4]
  · intro r hr
    unfold decodeResponse at hr
    cases hpk : caps.parsePublicKey (trim im.account_id) with
    | none =>
      rw [hpk] at hr
      exact absurd hr (by simp)
    | some pk =>
      rw [hpk] at hr
      cases hm : decodeMemo caps im.memo_type im.memo with
      | error e =>
        rw [hm] at hr
        exact absurd hr (by simp)
      | ok memo =>
        rw [hm] at hr
        obtain rfl := Except.ok.inj hr
        rfl
  · obtain ⟨sa, aid, mtp, mm⟩ := im
    unfold decodeResponse
    dsimp only
    cases hpk : caps.parsePublicKey (trim aid) with
    | none => rfl
    | some pk =>
      cases hm : decodeMemo caps mtp mm with
      | error e => rfl
      | ok memo => rfl

/-- C10 witness: appending an unknown field to a well-formed body leaves
the parse unchanged, and the decoded record's `stellar_address` is the
wire value verbatim, with any replacement string accepted unchanged. -/
theorem c10_unknown_fields_and_verbatim_address_witness :
    parseIntermediate (bodyGood ++ [("extra_field", JVal.jnum 7)]) =
        parseIntermediate bodyGood ∧
      (∀ r, decodeResponse capsA imGood = Except.ok r →
        r.stellar_address = imGood.stellar_address) ∧
      decodeResponse capsA { imGood with stellar_address := "anything at all" } =
        (decodeResponse capsA imGood).map
          fun r => { r with stellar_address := "anything at all" } :=
  c10_unknown_fields_and_verbatim_address bodyGood [("extra_field", JVal.jnum 7)]
    capsA imGood "anything at all" (by decide)

end StellarFederation
